import Mathlib

/-!
Verification of the typed CSR register-access layer (`riscv` / `riscv-peripheral`).

Shallow embedding of:
  * `src/riscv/src/error.rs` — the recoverable error kinds;
  * `src/riscv/src/index.rs` — `RangedIndex<MIN, MAX>` with its clamping and
    fallible constructors;
  * the bitfield register model used by `src/riscv/src/register/mcountinhibit.rs`
    and `src/riscv/src/register/tests/read_only_csr.rs` (the `read_write_csr!` /
    `read_only_csr!` macro expansions are not part of the sources, so the field
    accessors are modelled from the spec and checked against the in-tree tests);
  * `src/riscv-peripheral/src/macros.rs` — the CLINT/PLIC peripheral handles,
    over an abstract machine-interrupt CSR state (the `mie`/`mip` bit primitives
    are external collaborators, modelled from the spec).

`usize` values are modelled as `Nat`; where word-width complement matters the
width is taken to be 64 bits with explicit masking.
-/

/-- The library's recoverable error type.

`OutOfBounds` is the variant of `Error` in `src/riscv/src/error.rs`.
`InvalidFieldVariant` is modelled from the spec: the `crate::result::Error`
variant used by `src/riscv/src/register/tests/read_only_csr.rs` (its defining
module `result.rs` is not among the sources); the spec describes it as
`InvalidFieldVariant{field name, observed value}`. -/
inductive Error where
  | OutOfBounds
  | InvalidFieldVariant (field : String) (value : Nat)
  deriving DecidableEq, Repr

/-- `RangedIndex<const MIN: usize, const MAX: usize>(usize)` from
`src/riscv/src/index.rs`: an index type restricted by a given valid range. -/
structure RangedIndex (MIN MAX : Nat) where
  val : Nat
  deriving DecidableEq, Repr

/-- `RangedIndex::new()`: creates a new `RangedIndex` holding `MIN`. -/
def RangedIndex.new (MIN MAX : Nat) : RangedIndex MIN MAX :=
  ⟨MIN⟩

/-- `RangedIndex::from_inner`, from `src/riscv/src/index.rs`:
```text
match val {
    v if v <= MIN => Self(MIN),
    v if v >= MAX => Self(MAX),
    v => Self(v),
}
``` -/
def RangedIndex.from_inner (MIN MAX : Nat) (val : Nat) : RangedIndex MIN MAX :=
  if val ≤ MIN then ⟨MIN⟩
  else if MAX ≤ val then ⟨MAX⟩
  else ⟨val⟩

/-- `RangedIndex::into_inner`: converts the `RangedIndex` into its inner
representation. -/
def RangedIndex.into_inner (r : RangedIndex MIN MAX) : Nat :=
  r.val

/-- `impl TryFrom<usize> for RangedIndex`, from `src/riscv/src/index.rs`:
```text
match val {
    v if (MIN..=MAX).contains(&v) => Ok(Self(v)),
    _ => Err(Error::OutOfBounds),
}
``` -/
def RangedIndex.tryFrom (MIN MAX : Nat) (val : Nat) : Except Error (RangedIndex MIN MAX) :=
  if MIN ≤ val ∧ val ≤ MAX then .ok ⟨val⟩ else .error .OutOfBounds

/-- The clamp function as the spec words it: `clamp(v, MIN, MAX)`, saturating
`v` to the nearest bound of `[MIN, MAX]`. -/
def clampSpec (v lo hi : Nat) : Nat :=
  max lo (min v hi)

/-- Claim C1: for every `usize` value `v` and every instantiation
`RangedIndex<MIN,MAX>`, `try_from(v)` succeeds exactly when `MIN ≤ v ≤ MAX`,
on success the wrapped value equals `v` (`into_inner() == v`), and for every
`v` outside `[MIN, MAX]` it fails with the `OutOfBounds` error. -/
theorem RangedIndex.tryFrom_spec (MIN MAX v : Nat) :
    (RangedIndex.tryFrom MIN MAX v = .ok ⟨v⟩ ↔ MIN ≤ v ∧ v ≤ MAX)
    ∧ (MIN ≤ v ∧ v ≤ MAX → ∃ r : RangedIndex MIN MAX,
        RangedIndex.tryFrom MIN MAX v = .ok r ∧ r.into_inner = v)
    ∧ (¬(MIN ≤ v ∧ v ≤ MAX) →
        RangedIndex.tryFrom MIN MAX v = .error Error.OutOfBounds) := by
  unfold RangedIndex.tryFrom
  split_ifs with h
  · exact ⟨⟨fun _ => h, fun _ => rfl⟩, fun _ => ⟨⟨v⟩, rfl, rfl⟩, fun hc => absurd h hc⟩
  · exact ⟨⟨fun he => absurd he (by simp), fun hc => absurd hc h⟩,
      fun hc => absurd hc h, fun _ => rfl⟩

/-- Witness for C1 at concrete inputs: `try_from 7` on `RangedIndex<1,5>` fails
with `OutOfBounds`, and `try_from 3` succeeds wrapping `3`. -/
theorem RangedIndex.tryFrom_spec_witness :
    RangedIndex.tryFrom 1 5 7 = .error Error.OutOfBounds
    ∧ ∃ r : RangedIndex 1 5, RangedIndex.tryFrom 1 5 3 = .ok r ∧ r.into_inner = 3 :=
  ⟨(RangedIndex.tryFrom_spec 1 5 7).2.2 (by omega),
   (RangedIndex.tryFrom_spec 1 5 3).2.1 (by omega)⟩

/-- Claim C2: for every `usize` value `v` and every instantiation
`RangedIndex<MIN,MAX>` with `MIN ≤ MAX`, `from_inner(v)` never fails and
`from_inner(v).into_inner()` equals `clamp(v, MIN, MAX)`, hence always lies in
`[MIN, MAX]`; values below `MIN` saturate to `MIN` and values above `MAX`
saturate to `MAX`. -/
theorem RangedIndex.from_inner_clamps (MIN MAX v : Nat) (h : MIN ≤ MAX) :
    (RangedIndex.from_inner MIN MAX v).into_inner = clampSpec v MIN MAX
    ∧ MIN ≤ (RangedIndex.from_inner MIN MAX v).into_inner
    ∧ (RangedIndex.from_inner MIN MAX v).into_inner ≤ MAX
    ∧ (v < MIN → (RangedIndex.from_inner MIN MAX v).into_inner = MIN)
    ∧ (MAX < v → (RangedIndex.from_inner MIN MAX v).into_inner = MAX) := by
  unfold RangedIndex.from_inner clampSpec
  split_ifs <;> simp [RangedIndex.into_inner] <;> omega

/-- Witness for C2 at concrete inputs on `RangedIndex<1,5>`: `from_inner 9`
clamps to the upper bound. -/
theorem RangedIndex.from_inner_clamps_witness :
    (RangedIndex.from_inner 1 5 9).into_inner = clampSpec 9 1 5
    ∧ (RangedIndex.from_inner 1 5 9).into_inner = 5 := by
  have h := RangedIndex.from_inner_clamps 1 5 9 (by omega)
  exact ⟨h.1, h.2.2.2.2 (by omega)⟩

/-- Claim C10: the clamping and fallible `RangedIndex` constructors agree
wherever both are defined: for every instantiation with `MIN ≤ MAX` and every
`v` with `MIN ≤ v ≤ MAX`, `from_inner(v)` equals the `RangedIndex` returned by
the successful `try_from(v)`, and both wrap exactly `v`. -/
theorem RangedIndex.from_inner_agrees_tryFrom (MIN MAX v : Nat)
    (h1 : MIN ≤ MAX) (h2 : MIN ≤ v) (h3 : v ≤ MAX) :
    RangedIndex.tryFrom MIN MAX v = .ok (RangedIndex.from_inner MIN MAX v)
    ∧ (RangedIndex.from_inner MIN MAX v).into_inner = v := by
  unfold RangedIndex.tryFrom RangedIndex.from_inner
  split_ifs <;> simp [RangedIndex.into_inner, RangedIndex.mk.injEq] <;> omega

/-- Witness for C10 at concrete inputs on `RangedIndex<2,6>` with `v = 4`. -/
theorem RangedIndex.from_inner_agrees_tryFrom_witness :
    RangedIndex.tryFrom 2 6 4 = .ok (RangedIndex.from_inner 2 6 4)
    ∧ (RangedIndex.from_inner 2 6 4).into_inner = 4 :=
  RangedIndex.from_inner_agrees_tryFrom 2 6 4 (by omega) (by omega) (by omega)

/-- Modelled from the spec: the multi-bit field getter of the CSR field macros
(`read_only_csr_field!` expansions are not among the sources; the in-tree test
`src/riscv/src/register/tests/read_only_csr.rs` exercises it). For a field over
bit range `[P, P+N)` the getter returns `(bits >> P) & ((1 << N) - 1)`. -/
def getField (bits P N : Nat) : Nat :=
  (bits >>> P) &&& ((1 <<< N) - 1)

/-- Modelled from the spec: the single-bit field getter of the CSR field
macros: for a field at bit position `P` the getter returns
`(bits >> P) & 1 != 0`. -/
def getBitField (bits P : Nat) : Bool :=
  (bits >>> P) &&& 1 != 0

/-- Modelled from the spec: the single-bit field setter of the CSR field
macros, on a 64-bit `usize`: `bits | (1 << P)` when the argument is `true`,
`bits & !(1 << P)` when it is `false`; the `usize` complement `!(1 << P)` is
`(2^64 - 1) ^^^ (1 <<< P)`. It mutates only the in-memory word. -/
def setBitField (bits P : Nat) (b : Bool) : Nat :=
  if b then bits ||| (1 <<< P) else bits &&& ((2 ^ 64 - 1) ^^^ (1 <<< P))

/-- The `Mtest` test CSR register type declared by `read_only_csr!` in
`src/riscv/src/register/tests/read_only_csr.rs`: one raw word `bits`,
mask `0b1111_1111_1111`, CSR number `0x000`. -/
structure Mtest where
  bits : Nat
  deriving DecidableEq, Repr

/-- `Mtest::BITMASK`: the declared mask `0b1111_1111_1111`. -/
def Mtest.BITMASK : Nat :=
  0xfff

/-- `Mtest::from_bits`: wraps a raw word without masking (the in-tree test
checks that bits outside the declared fields are preserved). -/
def Mtest.from_bits (bits : Nat) : Mtest :=
  ⟨bits⟩

/-- `Mtest::bitmask()`: returns the declared mask. -/
def Mtest.bitmask (_ : Mtest) : Nat :=
  Mtest.BITMASK

/-- `Mtest::single`: single-bit field at bit 0. -/
def Mtest.single (m : Mtest) : Bool :=
  getBitField m.bits 0

/-- `Mtest::try_single`: fallible getter of the plain single-bit field; it
always succeeds (test lines 71 and 75). Modelled from the spec. -/
def Mtest.try_single (m : Mtest) : Except Error Bool :=
  .ok m.single

/-- `Mtest::multi_field`: multi-bit field over bit range `[4:7]`
(position 4, width 4). Modelled from the spec. -/
def Mtest.multi_field (m : Mtest) : Nat :=
  getField m.bits 4 4

/-- `Mtest::try_multi_field`: fallible getter of the plain multi-bit field; it
always succeeds (test lines 95-113). Modelled from the spec. -/
def Mtest.try_multi_field (m : Mtest) : Except Error Nat :=
  .ok m.multi_field

/-- `MtestFieldEnum` from `read_only_csr.rs`: enumerated field type with valid
variants `Field1 = 1`, `Field2 = 2`, `Field3 = 3`, `Field4 = 15` and declared
default `Field1`, over bit range `[7:11]`. -/
inductive MtestFieldEnum where
  | Field1
  | Field2
  | Field3
  | Field4
  deriving DecidableEq, Repr

/-- `MtestFieldEnum::into_usize`: the declared integer of each variant. -/
def MtestFieldEnum.into_usize : MtestFieldEnum → Nat
  | .Field1 => 1
  | .Field2 => 2
  | .Field3 => 3
  | .Field4 => 15

/-- Modelled from the spec: the decode table of the enumerated field, mapping
a decoded integer to its matching symbol when a table entry matches. -/
def MtestFieldEnum.from_usize : Nat → Option MtestFieldEnum
  | 1 => some .Field1
  | 2 => some .Field2
  | 3 => some .Field3
  | 15 => some .Field4
  | _ => none

/-- `Mtest::field_enum`: plain getter of the enumerated field over bit range
`[7:11]` (position 7, width 5); returns the declared default `Field1` when no
table entry matches. Modelled from the spec. -/
def Mtest.field_enum (m : Mtest) : MtestFieldEnum :=
  (MtestFieldEnum.from_usize (getField m.bits 7 5)).getD .Field1

/-- `Mtest::try_field_enum`: fallible getter of the enumerated field; returns
the matching symbol, or fails with `InvalidFieldVariant` carrying the field
name and the raw decoded integer of the field's bit range. Modelled from the
spec and checked against test lines 115-144. -/
def Mtest.try_field_enum (m : Mtest) : Except Error MtestFieldEnum :=
  match MtestFieldEnum.from_usize (getField m.bits 7 5) with
  | some s => .ok s
  | none => .error (.InvalidFieldVariant "field_enum" (getField m.bits 7 5))

/-- The masked field read is truncation to the field width: masking with
`(1 << N) - 1` is reduction `mod 2^N`. -/
theorem getField_eq_mod (bits P N : Nat) :
    getField bits P N = (bits >>> P) % 2 ^ N := by
  unfold getField
  rw [Nat.one_shiftLeft, Nat.and_pow_two_sub_one_eq_mod]

/-- Decoding a declared variant's integer recovers that variant. -/
theorem MtestFieldEnum.from_usize_into_usize (s : MtestFieldEnum) :
    MtestFieldEnum.from_usize s.into_usize = some s := by
  cases s <;> rfl

/-- Claim C4: for the multi-bit field of width 4 at bit position 4, and for
every raw register value `bits`, the getter returns `(bits >> 4) & 0xf`, which
is the truncation `(bits >> 4) mod 2^4`; when the stored bits encode a value
`x ≥ 2^4` the getter returns `x mod 2^4`; and the register's raw bits are left
unchanged by the read. -/
theorem Mtest.multi_field_truncates (bits x : Nat) :
    (Mtest.from_bits bits).multi_field = (bits >>> 4) % 2 ^ 4
    ∧ (Mtest.from_bits (x <<< 4)).multi_field = x % 2 ^ 4
    ∧ (Mtest.from_bits bits).bits = bits := by
  refine ⟨getField_eq_mod bits 4 4, ?_, rfl⟩
  have h : (x <<< 4) >>> 4 = x := Nat.shiftLeft_shiftRight x 4
  calc (Mtest.from_bits (x <<< 4)).multi_field
      = (x <<< 4) >>> 4 % 2 ^ 4 := getField_eq_mod (x <<< 4) 4 4
    _ = x % 2 ^ 4 := by rw [h]

/-- Claim C6: for the enumerated multi-bit field over bit range `[7:11]`, the
fallible getter returns the symbol matching the decoded integer when a table
entry matches, and otherwise fails with `InvalidFieldVariant` whose field
component is `"field_enum"` and whose value component is the raw decoded
integer of the field's bit range (the value after masking to the field width);
for every declared (integer, symbol) pair, a register holding that integer in
the field's range decodes to that symbol (fallibly and plainly). -/
theorem Mtest.field_enum_decode_spec (bits : Nat) (s : MtestFieldEnum) :
    (Mtest.try_field_enum (Mtest.from_bits bits) = .ok s ↔
      MtestFieldEnum.from_usize (getField bits 7 5) = some s)
    ∧ (MtestFieldEnum.from_usize (getField bits 7 5) = none →
        Mtest.try_field_enum (Mtest.from_bits bits) =
          .error (Error.InvalidFieldVariant "field_enum" (getField bits 7 5)))
    ∧ (getField bits 7 5 = s.into_usize →
        Mtest.try_field_enum (Mtest.from_bits bits) = .ok s
        ∧ Mtest.field_enum (Mtest.from_bits bits) = s) := by
  have hbits : (Mtest.from_bits bits).bits = bits := rfl
  unfold Mtest.try_field_enum Mtest.field_enum
  rw [hbits]
  cases hd : MtestFieldEnum.from_usize (getField bits 7 5) with
  | none =>
    refine ⟨by simp, fun _ => rfl, fun he => ?_⟩
    rw [he, MtestFieldEnum.from_usize_into_usize] at hd
    exact Option.noConfusion hd
  | some t =>
    refine ⟨by simp, fun hc => Option.noConfusion hc, fun he => ?_⟩
    rw [he, MtestFieldEnum.from_usize_into_usize] at hd
    cases hd
    exact ⟨rfl, rfl⟩

/-- Witness for C6 at concrete inputs: raw bits `0xbad << 7` have decoded field
value `13`, which matches no table entry, so the fallible getter fails with
`InvalidFieldVariant{field: "field_enum", value: 13}`; raw bits `15 << 7`
decode to `Field4`. -/
theorem Mtest.field_enum_decode_spec_witness :
    Mtest.try_field_enum (Mtest.from_bits (0xbad <<< 7)) =
      .error (Error.InvalidFieldVariant "field_enum" 13)
    ∧ Mtest.try_field_enum (Mtest.from_bits (15 <<< 7)) = .ok MtestFieldEnum.Field4
    ∧ Mtest.field_enum (Mtest.from_bits (15 <<< 7)) = MtestFieldEnum.Field4 := by
  have h1 := (Mtest.field_enum_decode_spec (0xbad <<< 7) MtestFieldEnum.Field1).2.1 (by decide)
  have h2 := (Mtest.field_enum_decode_spec (15 <<< 7) MtestFieldEnum.Field4).2.2 (by decide)
  have e : getField (0xbad <<< 7) 7 5 = 13 := by decide
  rw [e] at h1
  exact ⟨h1, h2.1, h2.2⟩

/-- Claim C3: the library's recoverable error type is a closed set of exactly
two kinds — `OutOfBounds`, and `InvalidFieldVariant` carrying the field name
and the observed value; every fallible constructor or accessor returns one of
these two kinds and never silently swallows the failure: `try_from` fails only
with `OutOfBounds` and exactly on out-of-range inputs, the enumerated-field
fallible getter fails only with `InvalidFieldVariant` naming the field and the
decoded value and exactly when the decode table has no match, and the fallible
getters of plain fields always succeed. -/
theorem Error.closed_two_kinds :
    (∀ e : Error, e = Error.OutOfBounds ∨ ∃ f v, e = Error.InvalidFieldVariant f v)
    ∧ (∀ MIN MAX v e, RangedIndex.tryFrom MIN MAX v = .error e → e = Error.OutOfBounds)
    ∧ (∀ m e, Mtest.try_field_enum m = .error e →
        e = Error.InvalidFieldVariant "field_enum" (getField m.bits 7 5))
    ∧ (∀ m : Mtest, (∃ e, Mtest.try_field_enum m = .error e) ↔
        MtestFieldEnum.from_usize (getField m.bits 7 5) = none)
    ∧ (∀ m : Mtest, Mtest.try_single m = .ok m.single
        ∧ Mtest.try_multi_field m = .ok m.multi_field) := by
  refine ⟨?_, ?_, ?_, ?_, fun m => ⟨rfl, rfl⟩⟩
  · intro e
    cases e with
    | OutOfBounds => exact .inl rfl
    | InvalidFieldVariant f v => exact .inr ⟨f, v, rfl⟩
  · intro MIN MAX v e h
    unfold RangedIndex.tryFrom at h
    split_ifs at h with hc
    injection h with h2
    exact h2.symm
  · intro m e h
    unfold Mtest.try_field_enum at h
    cases hd : MtestFieldEnum.from_usize (getField m.bits 7 5) with
    | none =>
      rw [hd] at h
      injection h with h2
      exact h2.symm
    | some t =>
      rw [hd] at h
      exact Except.noConfusion h
  · intro m
    unfold Mtest.try_field_enum
    cases hd : MtestFieldEnum.from_usize (getField m.bits 7 5) with
    | none => simp
    | some t => simp

/-- Witness for C3 at concrete inputs: the closedness disjunction at
`OutOfBounds`, the `try_from` failure kind on `RangedIndex<1,5>` at `9`, and
the enumerated-field failure kind at raw bits `0xbad << 7`. -/
theorem Error.closed_two_kinds_witness :
    (Error.OutOfBounds = Error.OutOfBounds ∨
      ∃ f v, Error.OutOfBounds = Error.InvalidFieldVariant f v)
    ∧ Error.OutOfBounds = Error.OutOfBounds
    ∧ Error.InvalidFieldVariant "field_enum" 13 =
        Error.InvalidFieldVariant "field_enum" (getField (0xbad <<< 7) 7 5) := by
  refine ⟨Error.closed_two_kinds.1 Error.OutOfBounds, ?_, ?_⟩
  · exact Error.closed_two_kinds.2.1 1 5 9 Error.OutOfBounds rfl
  · exact Error.closed_two_kinds.2.2.1 (Mtest.from_bits (0xbad <<< 7))
      (Error.InvalidFieldVariant "field_enum" 13) rfl

/-- The `Mcountinhibit` register type declared by `read_write_csr!` in
`src/riscv/src/register/mcountinhibit.rs`: one raw word, with fields
`cy` (bit 0), `ir` (bit 2) and `hpm` (repeated single-bit field over
bits 3..=31). -/
structure Mcountinhibit where
  bits : Nat
  deriving DecidableEq, Repr

/-- `Mcountinhibit::cy`: gets the `cycle[h]` inhibit field (bit 0).
Modelled from the spec (the `read_write_csr!` expansion is not among the
sources; the in-tree test exercises it). -/
def Mcountinhibit.cy (m : Mcountinhibit) : Bool :=
  getBitField m.bits 0

/-- `Mcountinhibit::set_cy`: sets the `cycle[h]` inhibit field (bit 0); only
updates the in-memory value without touching the CSR. Modelled from the
spec. -/
def Mcountinhibit.set_cy (m : Mcountinhibit) (b : Bool) : Mcountinhibit :=
  ⟨setBitField m.bits 0 b⟩

/-- `Mcountinhibit::ir`: gets the `instret[h]` inhibit field (bit 2).
Modelled from the spec. -/
def Mcountinhibit.ir (m : Mcountinhibit) : Bool :=
  getBitField m.bits 2

/-- `Mcountinhibit::set_ir`: sets the `instret[h]` inhibit field (bit 2); only
updates the in-memory value without touching the CSR. Modelled from the
spec. -/
def Mcountinhibit.set_ir (m : Mcountinhibit) (b : Bool) : Mcountinhibit :=
  ⟨setBitField m.bits 2 b⟩

/-- `Mcountinhibit::hpm(index)`: gets the `mhpmcounterX[h]` inhibit field, the
repeated single-bit field at bit position `index`; the caller must keep
`index` within `[3, 31]`. Modelled from the spec. -/
def Mcountinhibit.hpm (m : Mcountinhibit) (index : Nat) : Bool :=
  getBitField m.bits index

/-- `Mcountinhibit::set_hpm(index, b)`: sets the `mhpmcounterX[h]` inhibit
field at bit position `index`; only updates the in-memory value without
touching the CSR. Modelled from the spec. -/
def Mcountinhibit.set_hpm (m : Mcountinhibit) (index : Nat) (b : Bool) : Mcountinhibit :=
  ⟨setBitField m.bits index b⟩

/-- The single-bit getter is `Nat.testBit`. -/
theorem getBitField_eq_testBit (bits P : Nat) :
    getBitField bits P = bits.testBit P := by
  unfold getBitField
  rw [Nat.and_one_is_mod, Nat.testBit_to_div_mod, Nat.shiftRight_eq_div_pow]
  rcases Nat.mod_two_eq_zero_or_one (bits / 2 ^ P) with h | h <;> rw [h] <;> rfl

/-- Reading back the just-written single-bit field returns the written
boolean. -/
theorem setBitField_get_same (bits P : Nat) (b : Bool) (hP : P < 64) :
    getBitField (setBitField bits P b) P = b := by
  rw [getBitField_eq_testBit]
  unfold setBitField
  cases b with
  | true => simp [Nat.one_shiftLeft, Nat.testBit_two_pow]
  | false =>
    rw [if_neg (by simp), Nat.testBit_and, Nat.testBit_xor, Nat.testBit_two_pow_sub_one,
      Nat.one_shiftLeft, Nat.testBit_two_pow]
    simp [hP]

/-- The single-bit setter leaves every other bit of the word unchanged. -/
theorem setBitField_frame (bits P j : Nat) (b : Bool) (hb : bits < 2 ^ 64) (hj : j ≠ P) :
    (setBitField bits P b).testBit j = bits.testBit j := by
  unfold setBitField
  have hpj : decide (P = j) = false := by
    simp [Ne.symm hj]
  cases b with
  | true => simp [Nat.one_shiftLeft, Nat.testBit_two_pow_of_ne (Ne.symm hj)]
  | false =>
    rw [if_neg (by simp), Nat.testBit_and, Nat.testBit_xor, Nat.testBit_two_pow_sub_one,
      Nat.one_shiftLeft, Nat.testBit_two_pow, hpj]
    by_cases hlt : j < 64
    · simp [hlt]
    · have h1 : bits.testBit j = false := by
        refine Nat.testBit_lt_two_pow (lt_of_lt_of_le hb ?_)
        exact Nat.pow_le_pow_right (by omega) (by omega)
      simp [hlt, h1]

/-- Claim C5: for the single-bit fields of `Mcountinhibit` with declared
setters (`set_cy` at bit 0, `set_ir` at bit 2, `set_hpm` at bit `i ∈ [3,31]`):
for every starting register value, calling the setter with boolean `b` then
the getter returns `b`, and every bit of the in-memory value other than the
field's bit is unchanged by the setter. The setters are pure state-to-state
functions on the wrapped word: they mutate only the in-memory representation
and issue no hardware CSR write. -/
theorem Mcountinhibit.single_bit_setter_spec (bits i j : Nat) (b : Bool)
    (hb : bits < 2 ^ 64) (hi3 : 3 ≤ i) (hi31 : i ≤ 31) :
    ((⟨bits⟩ : Mcountinhibit).set_cy b).cy = b
    ∧ (j ≠ 0 → ((⟨bits⟩ : Mcountinhibit).set_cy b).bits.testBit j = bits.testBit j)
    ∧ ((⟨bits⟩ : Mcountinhibit).set_ir b).ir = b
    ∧ (j ≠ 2 → ((⟨bits⟩ : Mcountinhibit).set_ir b).bits.testBit j = bits.testBit j)
    ∧ ((⟨bits⟩ : Mcountinhibit).set_hpm i b).hpm i = b
    ∧ (j ≠ i → ((⟨bits⟩ : Mcountinhibit).set_hpm i b).bits.testBit j = bits.testBit j) :=
  ⟨setBitField_get_same bits 0 b (by omega),
   fun hj => setBitField_frame bits 0 j b hb hj,
   setBitField_get_same bits 2 b (by omega),
   fun hj => setBitField_frame bits 2 j b hb hj,
   setBitField_get_same bits i b (by omega),
   fun hj => setBitField_frame bits i j b hb hj⟩

/-- Witness for C5 at concrete inputs: on the zero word, `set_cy true` makes
`cy` read `true`, and `set_hpm 3 true` leaves bit 5 unchanged. -/
theorem Mcountinhibit.single_bit_setter_spec_witness :
    ((⟨0⟩ : Mcountinhibit).set_cy true).cy = true
    ∧ ((⟨0⟩ : Mcountinhibit).set_hpm 3 true).bits.testBit 5 = (0 : Nat).testBit 5 := by
  have h := Mcountinhibit.single_bit_setter_spec 0 3 5 true (Nat.two_pow_pos 64)
    (by omega) (by omega)
  exact ⟨h.1, h.2.2.2.2.2 (by omega)⟩

/-- Modelled from the spec: the machine-interrupt-enable CSR (`mie`) as seen by
the peripheral layer, keyed by named bits — software interrupt (`msoft`),
timer (`mtimer`), external (`mext`). The `riscv::register::mie` module is an
external collaborator consumed as opaque read / set-bit / clear-bit
operations. -/
structure Mie where
  msoft : Bool
  mtimer : Bool
  mext : Bool
  deriving DecidableEq, Repr

/-- Modelled from the spec: the machine-interrupt-pending CSR (`mip`), keyed by
the same named bits. -/
structure Mip where
  msoft : Bool
  mtimer : Bool
  mext : Bool
  deriving DecidableEq, Repr

/-- The machine-interrupt CSR state the peripheral handles read and write. -/
structure CsrState where
  mie : Mie
  mip : Mip
  deriving DecidableEq, Repr

/-- `riscv::register::mie::read()`. Modelled from the spec. -/
def mie.read (s : CsrState) : Mie :=
  s.mie

/-- `riscv::register::mip::read()`. Modelled from the spec. -/
def mip.read (s : CsrState) : Mip :=
  s.mip

/-- `riscv::register::mie::set_msoft()`. Modelled from the spec. -/
def mie.set_msoft (s : CsrState) : CsrState :=
  { s with mie := { s.mie with msoft := true } }

/-- `riscv::register::mie::clear_msoft()`. Modelled from the spec. -/
def mie.clear_msoft (s : CsrState) : CsrState :=
  { s with mie := { s.mie with msoft := false } }

/-- `riscv::register::mie::set_mtimer()`. Modelled from the spec. -/
def mie.set_mtimer (s : CsrState) : CsrState :=
  { s with mie := { s.mie with mtimer := true } }

/-- `riscv::register::mie::clear_mtimer()`. Modelled from the spec. -/
def mie.clear_mtimer (s : CsrState) : CsrState :=
  { s with mie := { s.mie with mtimer := false } }

/-- `riscv::register::mie::set_mext()`. Modelled from the spec. -/
def mie.set_mext (s : CsrState) : CsrState :=
  { s with mie := { s.mie with mext := true } }

/-- `riscv::register::mie::clear_mext()`. Modelled from the spec. -/
def mie.clear_mext (s : CsrState) : CsrState :=
  { s with mie := { s.mie with mext := false } }

/-- `CLINT::mswi_is_interrupting()` from `src/riscv-peripheral/src/macros.rs`:
`mip::read().msoft()`. -/
def CLINT.mswi_is_interrupting (s : CsrState) : Bool :=
  (mip.read s).msoft

/-- `CLINT::mswi_is_enabled()`: `mie::read().msoft()`. -/
def CLINT.mswi_is_enabled (s : CsrState) : Bool :=
  (mie.read s).msoft

/-- `CLINT::mswi_enable()`: `mie::set_msoft()`. -/
def CLINT.mswi_enable (s : CsrState) : CsrState :=
  mie.set_msoft s

/-- `CLINT::mswi_disable()`: `mie::clear_msoft()`. -/
def CLINT.mswi_disable (s : CsrState) : CsrState :=
  mie.clear_msoft s

/-- `CLINT::mtimer_is_interrupting()`: `mip::read().mtimer()`. -/
def CLINT.mtimer_is_interrupting (s : CsrState) : Bool :=
  (mip.read s).mtimer

/-- `CLINT::mtimer_is_enabled()`: `mie::read().mtimer()`. -/
def CLINT.mtimer_is_enabled (s : CsrState) : Bool :=
  (mie.read s).mtimer

/-- `CLINT::mtimer_enable()`: `mie::set_mtimer()`. -/
def CLINT.mtimer_enable (s : CsrState) : CsrState :=
  mie.set_mtimer s

/-- `CLINT::mtimer_disable()`: `mie::clear_mtimer()`. -/
def CLINT.mtimer_disable (s : CsrState) : CsrState :=
  mie.clear_mtimer s

/-- `CLINT::is_interrupting()` from `macros.rs`:
`Self::mswi_is_interrupting() || Self::mtimer_is_interrupting()`. -/
def CLINT.is_interrupting (s : CsrState) : Bool :=
  CLINT.mswi_is_interrupting s || CLINT.mtimer_is_interrupting s

/-- `CLINT::is_enabled()`:
`Self::mswi_is_enabled() || Self::mtimer_is_enabled()`. -/
def CLINT.is_enabled (s : CsrState) : Bool :=
  CLINT.mswi_is_enabled s || CLINT.mtimer_is_enabled s

/-- `CLINT::enable()`: `Self::mswi_enable(); Self::mtimer_enable();`. -/
def CLINT.enable (s : CsrState) : CsrState :=
  CLINT.mtimer_enable (CLINT.mswi_enable s)

/-- `CLINT::disable()`: `Self::mswi_disable(); Self::mtimer_disable();`. -/
def CLINT.disable (s : CsrState) : CsrState :=
  CLINT.mtimer_disable (CLINT.mswi_disable s)

/-- `PLIC::is_interrupting()` from `macros.rs`: `mip::read().mext()`. -/
def PLIC.is_interrupting (s : CsrState) : Bool :=
  (mip.read s).mext

/-- `PLIC::is_enabled()`: `mie::read().mext()`. -/
def PLIC.is_enabled (s : CsrState) : Bool :=
  (mie.read s).mext

/-- `PLIC::enable()`: `mie::set_mext()`. -/
def PLIC.enable (s : CsrState) : CsrState :=
  mie.set_mext s

/-- `PLIC::disable()`: `mie::clear_mext()`. -/
def PLIC.disable (s : CsrState) : CsrState :=
  mie.clear_mext s

/-- Claim C7: for the CLINT handle, `enable()` sets both the machine
software-interrupt enable bit and the machine timer enable bit, and
`disable()` clears both bits, regardless of which mechanism is later queried:
after `enable()` both `mswi_is_enabled()` and `mtimer_is_enabled()` hold, and
after `disable()` neither holds. -/
theorem CLINT.enable_disable_both (s : CsrState) :
    CLINT.mswi_is_enabled (CLINT.enable s) = true
    ∧ CLINT.mtimer_is_enabled (CLINT.enable s) = true
    ∧ (CLINT.enable s).mie.msoft = true
    ∧ (CLINT.enable s).mie.mtimer = true
    ∧ CLINT.mswi_is_enabled (CLINT.disable s) = false
    ∧ CLINT.mtimer_is_enabled (CLINT.disable s) = false
    ∧ (CLINT.disable s).mie.msoft = false
    ∧ (CLINT.disable s).mie.mtimer = false :=
  ⟨rfl, rfl, rfl, rfl, rfl, rfl, rfl, rfl⟩

/-- Claim C8: for every state of the interrupt-pending and interrupt-enable
CSRs, the CLINT handle's `is_interrupting()` returns `true` exactly when the
software-interrupt pending bit or the timer pending bit is asserted, and its
`is_enabled()` returns `true` exactly when the software-interrupt enable bit
or the timer enable bit is asserted; the PLIC handle's
`is_interrupting()`/`is_enabled()` return `true` exactly when the external
pending/enable bit is asserted. -/
theorem CLINT.PLIC.interrupt_query_spec (s : CsrState) :
    (CLINT.is_interrupting s = true ↔ s.mip.msoft = true ∨ s.mip.mtimer = true)
    ∧ (CLINT.is_enabled s = true ↔ s.mie.msoft = true ∨ s.mie.mtimer = true)
    ∧ (PLIC.is_interrupting s = true ↔ s.mip.mext = true)
    ∧ (PLIC.is_enabled s = true ↔ s.mie.mext = true) := by
  unfold CLINT.is_interrupting CLINT.is_enabled CLINT.mswi_is_interrupting
    CLINT.mtimer_is_interrupting CLINT.mswi_is_enabled CLINT.mtimer_is_enabled
    PLIC.is_interrupting PLIC.is_enabled mie.read mip.read
  simp [Bool.or_eq_true]

/-- A hardware CSR-bit write on the `mcountinhibit` CSR. Modelled from the
spec: the `_set`/`_clear` primitives of the architecture-register layer are
consumed as opaque set-bit/clear-bit operations keyed by a mask. -/
inductive CsrBitOp where
  | set (mask : Nat)
  | clear (mask : Nat)
  deriving DecidableEq, Repr

/-- Global helper `set_hpm` from `src/riscv/src/register/mcountinhibit.rs`:
```text
assert!((3..32).contains(&index));
_set(1 << index);
```
The failed assert is a panic (abort-class fault), modelled as `none`; on
success the performed hardware mask write is returned. -/
def mcountinhibit.set_hpm (index : Nat) : Option CsrBitOp :=
  if 3 ≤ index ∧ index < 32 then some (.set (1 <<< index)) else none

/-- Global helper `clear_hpm` from `src/riscv/src/register/mcountinhibit.rs`:
```text
assert!((3..32).contains(&index));
_clear(1 << index);
``` -/
def mcountinhibit.clear_hpm (index : Nat) : Option CsrBitOp :=
  if 3 ≤ index ∧ index < 32 then some (.clear (1 <<< index)) else none

/-- Claim C9: the global CSR-bit helpers `set_hpm(index)` and
`clear_hpm(index)` assert their own range check: for every index in `[3,31]`
they proceed to the hardware mask write with mask `1 << index`, and for every
index outside `[3,31]` they panic rather than return a value or perform a
write. -/
theorem mcountinhibit.hpm_range_assert (i : Nat) :
    (3 ≤ i ∧ i ≤ 31 →
      mcountinhibit.set_hpm i = some (CsrBitOp.set (1 <<< i))
      ∧ mcountinhibit.clear_hpm i = some (CsrBitOp.clear (1 <<< i)))
    ∧ (¬(3 ≤ i ∧ i ≤ 31) →
      mcountinhibit.set_hpm i = none ∧ mcountinhibit.clear_hpm i = none) := by
  unfold mcountinhibit.set_hpm mcountinhibit.clear_hpm
  split_ifs with h
  · exact ⟨fun _ => ⟨rfl, rfl⟩, fun hc => absurd ⟨h.1, by omega⟩ hc⟩
  · exact ⟨fun hc => absurd ⟨hc.1, by omega⟩ h, fun _ => ⟨rfl, rfl⟩⟩

/-- Witness for C9 at concrete inputs: index 5 is in range and translates to
the mask write `1 << 5`; indices 2 and 32 are out of range and panic. -/
theorem mcountinhibit.hpm_range_assert_witness :
    mcountinhibit.set_hpm 5 = some (CsrBitOp.set (1 <<< 5))
    ∧ mcountinhibit.set_hpm 2 = none
    ∧ mcountinhibit.clear_hpm 32 = none := by
  have h1 := (mcountinhibit.hpm_range_assert 5).1 (by omega)
  have h2 := (mcountinhibit.hpm_range_assert 2).2 (by omega)
  have h3 := (mcountinhibit.hpm_range_assert 32).2 (by omega)
  exact ⟨h1.1, h2.1, h3.2⟩
